import Mathlib

/-
  Verification development for the block-diagram layout optimizer.

  Shallow embedding of the layout model, the placement search, the cost
  evaluator, the move applier and the optimization loop of the repository
  (engine.py, optimization.py, conf.py).  Float values of the source are
  embedded as rationals; the transcendental acceptance test of simulated
  annealing is embedded over the reals.  External Qt geometry routines
  (painter-path intersection tests, painter-path arc length) are modelled
  as an oracle record, since they are library calls and not repository
  code.  Randomness (random.uniform, random.shuffle, random.random,
  random.choice) is modelled by explicit oracle inputs threaded through
  the functions that consume it.
-/

namespace Diagrams

/-- Pin directionality, from engine.py class PinType. -/
inductive PinType where
  | INPUT
  | OUTPUT
deriving DecidableEq, Repr

/-- Optimization move kinds, from engine.py class MoveType. -/
inductive MoveTypeM where
  | MOVE_BLOCK
  | REORDER_BLOCK_PINS
  | REORDER_DIAGRAM_PINS
deriving DecidableEq, Repr

/-- A 2D point with rational coordinates (embedding of QPointF). -/
structure QPointF where
  x : ℚ
  y : ℚ
deriving DecidableEq, Repr

/-- A rectangle given by top-left corner and size (embedding of QRectF).
All rectangles built by the model have non-negative width and height. -/
structure QRectF where
  x : ℚ
  y : ℚ
  w : ℚ
  h : ℚ
deriving DecidableEq, Repr

/-- QRectF.intersects for normalized rectangles: true when the overlap
has positive area in both axes (Qt returns false for rectangles that are
empty in an axis or merely touch along an edge). -/
def rectIntersects (a b : QRectF) : Bool :=
  a.w ≠ 0 && b.w ≠ 0 && a.h ≠ 0 && b.h ≠ 0 &&
    a.x < b.x + b.w && b.x < a.x + a.w &&
    a.y < b.y + b.h && b.y < a.y + a.h

/-- QRectF.united (operator or) for normalized rectangles: a null
rectangle (zero width and zero height) is the identity, otherwise the
bounding box of the two. -/
def qUnited (a b : QRectF) : QRectF :=
  if a.w = 0 ∧ a.h = 0 then b
  else if b.w = 0 ∧ b.h = 0 then a
  else
    let l := min a.x b.x
    let t := min a.y b.y
    let r := max (a.x + a.w) (b.x + b.w)
    let bo := max (a.y + a.h) (b.y + b.h)
    ⟨l, t, r - l, bo - t⟩

/-- QRectF.isEmpty: width or height not positive. -/
def qIsEmpty (r : QRectF) : Bool :=
  r.w ≤ 0 || r.h ≤ 0

/-- Python built-in round on a rational: nearest integer, ties to even
(banker rounding), as used for all grid snapping in the source. -/
def pyRound (q : ℚ) : ℤ :=
  let f := ⌊q⌋
  let r := q - (f : ℚ)
  if r < 1/2 then f
  else if 1/2 < r then f + 1
  else if f % 2 = 0 then f else f + 1

-- conf.py constants used by the optimization core.

/-- conf.GRID_SIZE. -/
def GRID_SIZE : ℚ := 20

/-- conf.BLOCK_PLACEMENT_SEARCH_MAX_RADIUS = 500 * GRID_SIZE. -/
def BLOCK_PLACEMENT_SEARCH_MAX_RADIUS : ℚ := 500 * GRID_SIZE

/-- conf.COST_FUNCTION_INTERSECTION_WEIGHT. -/
def COST_FUNCTION_INTERSECTION_WEIGHT : ℚ := 100

/-- conf.COST_FUNCTION_WIRELENGTH_WEIGHT (the float literal 0.1). -/
def COST_FUNCTION_WIRELENGTH_WEIGHT : ℚ := 1/10

/-- conf.OPTIMIZER_SA_MIN_TEMPERATURE (the float literal 1e-9). -/
def OPTIMIZER_SA_MIN_TEMPERATURE : ℚ := 1/1000000000

/-- conf.USE_DETAILED_INTERSECTION_CHECK (False in conf.py). -/
def USE_DETAILED_INTERSECTION_CHECK : Bool := false

/-- conf.SUPER_BLOCK_MARGIN_X. -/
def SUPER_BLOCK_MARGIN_X : ℚ := 120

/-- conf.SUPER_BLOCK_MARGIN_Y. -/
def SUPER_BLOCK_MARGIN_Y : ℚ := 40

/-- conf.BLOCK_PIN_TOP_PADDING = GRID_SIZE. -/
def BLOCK_PIN_TOP_PADDING : ℚ := GRID_SIZE

/-- conf.BLOCK_PIN_VERTICAL_SPACING = GRID_SIZE. -/
def BLOCK_PIN_VERTICAL_SPACING : ℚ := GRID_SIZE

/-- conf.BLOCK_TITLE_TOP_MARGIN. -/
def BLOCK_TITLE_TOP_MARGIN : ℚ := 4

/-- conf.WIRE_STUB_LENGTH = GRID_SIZE. -/
def WIRE_STUB_LENGTH : ℚ := GRID_SIZE

/-- conf.BEZIER_DX_FACTOR (the float literal 0.5). -/
def BEZIER_DX_FACTOR : ℚ := 1/2

/-- conf.BEZIER_STUB_FACTOR. -/
def BEZIER_STUB_FACTOR : ℚ := 3

/-- Snap a coordinate to the grid: round(v / GRID_SIZE) * GRID_SIZE,
the formula used throughout engine.py and optimization.py. -/
def snap (v : ℚ) : ℚ :=
  (pyRound (v / GRID_SIZE) : ℚ) * GRID_SIZE

-- Layout model.  Scene items are kept in three lists, each in the
-- stacking order that scene.items() reports for items of that class
-- (topmost first); names are unique within each kind, which the source
-- enforces at creation time.

/-- A block pin as stored on a Block: its dictionary key and its vertical
index.  Its geometry is derived (BlockPin.update_position), never stored
independently, so the embedding keeps only the index. -/
structure BlockPinM where
  name : String
  index : ℕ
deriving DecidableEq, Repr

/-- A block: position, rect size, title label size (font-metric data,
treated as opaque input), lock flag, and the two pin dictionaries in
insertion order. -/
structure BlockM where
  name : String
  x : ℚ
  y : ℚ
  w : ℚ
  h : ℚ
  titleW : ℚ
  titleH : ℚ
  locked : Bool
  inputPins : List BlockPinM
  outputPins : List BlockPinM
deriving DecidableEq, Repr

/-- A standalone diagram pin (DiagramInputPin or DiagramOutputPin):
name and scene position. -/
structure DPinM where
  name : String
  x : ℚ
  y : ℚ
deriving DecidableEq, Repr

/-- Identity of a pin object.  Pin objects are compared by identity in
the source; under the name-uniqueness invariants identity is determined
by these coordinates. -/
inductive PinRef where
  | blockPin (blockName : String) (ptype : PinType) (pinName : String)
  | dIn (name : String)
  | dOut (name : String)
deriving DecidableEq, Repr

/-- A wire: start pin (always OUTPUT-typed), end pin (always INPUT-typed),
and its lock flag.  The painter path is derived from pin positions. -/
structure WireM where
  src : PinRef
  dst : PinRef
  locked : Bool
deriving DecidableEq, Repr

/-- The scene: blocks, diagram input pins, diagram output pins and wires,
each list in stacking order. -/
structure SceneM where
  blocks : List BlockM
  dIns : List DPinM
  dOuts : List DPinM
  wires : List WireM
deriving DecidableEq, Repr

/-- Block.boundingRect: the local rect (0,0,w,h) united with the title
rectangle placed by Block._update_title_position (centered above the
block).  The Block override does not include any pen adjustment. -/
def blockBoundingRect (b : BlockM) : QRectF :=
  qUnited ⟨0, 0, b.w, b.h⟩
    ⟨(b.w - b.titleW) / 2, -b.titleH - BLOCK_TITLE_TOP_MARGIN, b.titleW, b.titleH⟩

/-- Block.sceneBoundingRect: the bounding rect translated by the position. -/
def blockSceneRect (b : BlockM) : QRectF :=
  let r := blockBoundingRect b
  ⟨r.x + b.x, r.y + b.y, r.w, r.h⟩

/-- DiagramPin.sceneBoundingRect: the diamond polygon spans 9 units from
the center (DIAGRAM_PIN_RADIUS * DIAGRAM_PIN_DIAMOND_SCALE = 6 * 1.5) and
the default boundingRect grows it by half the pen width (pen width 2),
giving a 20 by 20 box centered on the pin position. -/
def dpinSceneRect (p : DPinM) : QRectF :=
  ⟨p.x - 10, p.y - 10, 20, 20⟩

/-- engine._is_rect_overlapping: does the rectangle intersect the scene
bounding rect of any Block or DiagramPin, other than the item being
placed?  The ignored item is identified by block name when it is a block
already in the scene; items being auto-placed are not yet in the scene,
which the callers model by passing none. -/
def _is_rect_overlapping (s : SceneM) (rect : QRectF) (ignoreBlock : Option String) : Bool :=
  s.blocks.any (fun b =>
    (match ignoreBlock with
     | some n => decide (b.name ≠ n)
     | none => true)
    && rectIntersects rect (blockSceneRect b))
  || s.dIns.any (fun p => rectIntersects rect (dpinSceneRect p))
  || s.dOuts.any (fun p => rectIntersects rect (dpinSceneRect p))

/-- The while loop of find_safe_placement, with explicit fuel.  The
offset orbit (x, y, dx, dy) is independent of the scene: from the start
state (0, 0, 0, -GRID_SIZE) the first iteration turns the direction to
(GRID_SIZE, 0) and no later iteration satisfies a turn condition again
(they compare the pixel offsets against 1 and against equality with the
other axis, and y stays 0 while x is a positive multiple of GRID_SIZE),
so the walk moves right by GRID_SIZE each step and the radius condition
fails after exactly 500 steps.  Fuel 501 therefore reproduces the
unbounded while loop exactly. -/
def placementWalk (s : SceneM) (itemWidth itemHeight : ℚ) (ignoreBlock : Option String)
    (isCentered : Bool) (startPos : QPointF) :
    ℕ → ℚ → ℚ → ℚ → ℚ → QPointF
  | 0, _, _, _, _ => startPos
  | fuel + 1, x, y, dx, dy =>
    if x * x + y * y < BLOCK_PLACEMENT_SEARCH_MAX_RADIUS * BLOCK_PLACEMENT_SEARCH_MAX_RADIUS then
      let turn : Bool := decide (x = y) || (decide (x < 0) && decide (x = -y))
        || (decide (x > 0) && decide (x = 1 - y))
      let dx2 := if turn then -dy else dx
      let dy2 := if turn then dx else dy
      let x2 := x + dx2
      let y2 := y + dy2
      let currentPos : QPointF := ⟨startPos.x + x2, startPos.y + y2⟩
      let potentialTopLeft : QPointF :=
        if isCentered then ⟨currentPos.x - itemWidth / 2, currentPos.y - itemHeight / 2⟩
        else currentPos
      let potentialRect : QRectF := ⟨potentialTopLeft.x, potentialTopLeft.y, itemWidth, itemHeight⟩
      if ¬ _is_rect_overlapping s potentialRect ignoreBlock then currentPos
      else placementWalk s itemWidth itemHeight ignoreBlock isCentered startPos fuel x2 y2 dx2 dy2
    else startPos

/-- engine.find_safe_placement: snap the hint, test it, then run the
walk; the hint position is the fallback. -/
def find_safe_placement (s : SceneM) (itemWidth itemHeight : ℚ)
    (ignoreBlock : Option String) (searchCenterHint : QPointF) (isCentered : Bool) : QPointF :=
  let startPos : QPointF :=
    if isCentered then ⟨snap searchCenterHint.x, snap searchCenterHint.y⟩
    else ⟨snap (searchCenterHint.x - itemWidth / 2), snap (searchCenterHint.y - itemHeight / 2)⟩
  let initialTopLeft : QPointF :=
    if isCentered then ⟨startPos.x - itemWidth / 2, startPos.y - itemHeight / 2⟩
    else startPos
  let initialRect : QRectF := ⟨initialTopLeft.x, initialTopLeft.y, itemWidth, itemHeight⟩
  if ¬ _is_rect_overlapping s initialRect ignoreBlock then startPos
  else placementWalk s itemWidth itemHeight ignoreBlock isCentered startPos 501 0 0 0 (-GRID_SIZE)

-- Stable sorting.  Python sorted() is stable; the embedding uses a
-- stable insertion sort (an element is inserted after the elements whose
-- key equals its own).

/-- Insert a diagram pin into a list already sorted by y, after all
entries whose y is not greater (stability). -/
def insertByY (p : DPinM) : List DPinM → List DPinM
  | [] => [p]
  | q :: rest => if p.y < q.y then p :: q :: rest else q :: insertByY p rest

/-- Stable sort of diagram pins by scene y coordinate, as in
sorted(pins, key=lambda p: p.scenePos().y()). -/
def sortByY (l : List DPinM) : List DPinM :=
  l.foldl (fun acc p => insertByY p acc) []

/-- Insert a block pin into a list already sorted by index, after all
entries whose index is not greater (stability). -/
def insertByIndex (p : BlockPinM) : List BlockPinM → List BlockPinM
  | [] => [p]
  | q :: rest => if p.index < q.index then p :: q :: rest else q :: insertByIndex p rest

/-- Stable sort of block pins by index, as in
sorted(pins_dict.keys(), key=lambda k: pins_dict[k].index). -/
def sortByIndex (l : List BlockPinM) : List BlockPinM :=
  l.foldl (fun acc p => insertByIndex p acc) []

/-- Set equality of two name lists, as in set(a) == set(b). -/
def sameNameSet (a b : List String) : Bool :=
  a.all (fun n => b.contains n) && b.all (fun n => a.contains n)

/-- Index assigned to a name by the loop
for i, name in enumerate(names): target[name].index = i
(the last occurrence wins when the list has duplicates). -/
def lastIndexOf (names : List String) (n : String) : Option ℕ :=
  ((names.enum.filter (fun q => q.2 = n)).map (fun q => q.1)).getLast?

/-- First block with the given name, as the lookup loops over
scene.items() in move_block and set_block_pin_order. -/
def findBlock (s : SceneM) (bname : String) : Option BlockM :=
  s.blocks.find? (fun b => b.name = bname)

/-- Replace the first block with the given name (the object the source
mutates in place). -/
def updateFirstBlock : List BlockM → String → (BlockM → BlockM) → List BlockM
  | [], _, _ => []
  | b :: bs, n, f => if b.name = n then f b :: bs else b :: updateFirstBlock bs n f

/-- BlockDiagramScene.get_blocks_bounding_box: union of the scene
bounding rects of all blocks, empty default rect when there are none. -/
def get_blocks_bounding_box (s : SceneM) : QRectF :=
  match s.blocks with
  | [] => ⟨0, 0, 0, 0⟩
  | b :: bs => bs.foldl (fun acc b2 => qUnited acc (blockSceneRect b2)) (blockSceneRect b)

/-- BlockDiagramScene.get_super_block: the blocks bounding box expanded
by the margins, or the empty rect when there are no blocks. -/
def get_super_block (s : SceneM) : QRectF :=
  let bb := get_blocks_bounding_box s
  if qIsEmpty bb then bb
  else ⟨bb.x - SUPER_BLOCK_MARGIN_X, bb.y - SUPER_BLOCK_MARGIN_Y,
        bb.w + 2 * SUPER_BLOCK_MARGIN_X, bb.h + 2 * SUPER_BLOCK_MARGIN_Y⟩

/-- Target scene positions for diagram pins along one vertical edge of
the super block: the i-th pin of the y-sorted list goes to
(edgeX, top + (i+1) * height/(n+1)).  Every setPos of a DiagramPin is
grid-snapped by the itemChange handler of SelectableMovableItemMixin,
so both coordinates are snapped. -/
def alignTargets (edgeX top height : ℚ) (pins : List DPinM) : List (String × QPointF) :=
  let n := pins.length
  let seg := height / (n + 1)
  pins.enum.map (fun q =>
    (q.2.name, QPointF.mk (snap edgeX) (snap (top + (q.1 + 1 : ℚ) * seg))))

/-- Apply a name-to-position assignment to a pin list, keeping the list
(stacking) order. -/
def applyTargets (targets : List (String × QPointF)) (pins : List DPinM) : List DPinM :=
  pins.map (fun p =>
    match targets.find? (fun t => t.1 = p.name) with
    | some t => ⟨p.name, t.2.x, t.2.y⟩
    | none => p)

/-- BlockDiagramScene.realign_diagram_pins: distribute the diagram input
pins along the left edge and the diagram output pins along the right
edge of the super block, in the order of their current y coordinates
(stable for ties); does nothing when the super block is empty. -/
def realign_diagram_pins (s : SceneM) : SceneM :=
  let sb := get_super_block s
  if qIsEmpty sb then s
  else
    let insTargets := alignTargets sb.x sb.y sb.h (sortByY s.dIns)
    let outsTargets := alignTargets (sb.x + sb.w) sb.y sb.h (sortByY s.dOuts)
    { s with dIns := applyTargets insTargets s.dIns,
             dOuts := applyTargets outsTargets s.dOuts }

/-- MainWindow.move_block: find the block by name and setPos(x, y).
QGraphicsItem.setPos returns early when the requested position equals
the current one, and again when the grid-snapped position returned by
the itemChange handler equals the current one; only an actual position
change triggers the ItemPositionHasChanged hook of Block.itemChange,
which realigns the diagram pins. -/
def move_block (s : SceneM) (bname : String) (x y : ℚ) : SceneM × Bool :=
  match findBlock s bname with
  | none => (s, false)
  | some b =>
    if x = b.x ∧ y = b.y then (s, true)
    else
      let sx := snap x
      let sy := snap y
      if sx = b.x ∧ sy = b.y then (s, true)
      else
        let s2 := { s with blocks := (updateFirstBlock s.blocks bname
                      (fun bb => { bb with x := sx, y := sy })) }
        (realign_diagram_pins s2, true)

/-- MainWindow.set_block_pin_order: validate that the supplied names are
exactly the pins of the chosen direction, then assign index i to the pin
named by position i of the list.  Pin geometry is derived from the
indices (update_pin_positions recomputes it), so only the indices are
state. -/
def set_block_pin_order (s : SceneM) (bname : String) (pt : PinType)
    (orderedPinNames : List String) : SceneM × Bool :=
  match findBlock s bname with
  | none => (s, false)
  | some b =>
    let pins := if pt = PinType.INPUT then b.inputPins else b.outputPins
    if sameNameSet orderedPinNames (pins.map (fun p => p.name)) then
      let pins2 := pins.map (fun p =>
        match lastIndexOf orderedPinNames p.name with
        | some i => BlockPinM.mk p.name i
        | none => p)
      let s2 := { s with blocks := updateFirstBlock s.blocks bname (fun bb =>
        if pt = PinType.INPUT then { bb with inputPins := pins2 }
        else { bb with outputPins := pins2 }) }
      (s2, true)
    else (s, false)

/-- MainWindow.set_diagram_pin_order: validate the names, then for each
i set the pin named by position i to position (x, i) - which the
itemChange snapping of the pin turns into (snap x, snap i) - and finally
realign all diagram pins. -/
def set_diagram_pin_order (s : SceneM) (pt : PinType)
    (orderedPinNames : List String) : SceneM × Bool :=
  let pins := if pt = PinType.OUTPUT then s.dIns else s.dOuts
  if sameNameSet orderedPinNames (pins.map (fun p => p.name)) then
    let pins2 := pins.map (fun p =>
      match lastIndexOf orderedPinNames p.name with
      | some i => DPinM.mk p.name (snap p.x) (snap (i : ℚ))
      | none => p)
    let s2 := if pt = PinType.OUTPUT then { s with dIns := pins2 }
              else { s with dOuts := pins2 }
    (realign_diagram_pins s2, true)
  else (s, false)

-- Path routing and the cost evaluator.

/-- A cubic Bezier path as produced by RoutingManager.calculate_path:
start point, two control points, end point. -/
structure BezierM where
  p0 : QPointF
  c1 : QPointF
  c2 : QPointF
  p3 : QPointF
deriving DecidableEq, Repr

/-- RoutingManager.calculate_path: control points offset horizontally
from the endpoints by max(abs(dx) * 0.5, stub * 3), to the right of an
OUTPUT start and to the left of an INPUT end; for a temporary wire the
end direction is inferred as the opposite of the start direction; an
unknown end direction falls back to the INPUT offset. -/
def calculate_path (startPos endPos : QPointF) (startPinType : PinType)
    (endPinType : Option PinType) (isTemporary : Bool) : BezierM :=
  let dx := endPos.x - startPos.x
  let offset := max (|dx| * BEZIER_DX_FACTOR) (WIRE_STUB_LENGTH * BEZIER_STUB_FACTOR)
  let cp1x := if startPinType = PinType.OUTPUT then startPos.x + offset else startPos.x - offset
  let effectiveEndPinType :=
    if isTemporary then
      some (if startPinType = PinType.OUTPUT then PinType.INPUT else PinType.OUTPUT)
    else endPinType
  let cp2x :=
    match effectiveEndPinType with
    | some PinType.INPUT => endPos.x - offset
    | some PinType.OUTPUT => endPos.x + offset
    | none => endPos.x - offset
  ⟨startPos, ⟨cp1x, startPos.y⟩, ⟨cp2x, endPos.y⟩, endPos⟩

/-- Scene position of a pin.  A block pin sits at the left (INPUT) or
right (OUTPUT) edge of its block, at y = BLOCK_PIN_TOP_PADDING +
index * BLOCK_PIN_VERTICAL_SPACING below the block top
(BlockPin.update_position); a diagram pin sits at its own position.
Wire endpoints always resolve in a consistent scene; the zero point is
returned for a dangling reference. -/
def pinScenePos (s : SceneM) (r : PinRef) : QPointF :=
  match r with
  | PinRef.blockPin bname pt pname =>
    match findBlock s bname with
    | none => ⟨0, 0⟩
    | some b =>
      let pins := if pt = PinType.INPUT then b.inputPins else b.outputPins
      match pins.find? (fun p => p.name = pname) with
      | none => ⟨0, 0⟩
      | some p =>
        ⟨b.x + (if pt = PinType.INPUT then 0 else b.w),
         b.y + BLOCK_PIN_TOP_PADDING + (p.index : ℚ) * BLOCK_PIN_VERTICAL_SPACING⟩
  | PinRef.dIn n =>
    match s.dIns.find? (fun p => p.name = n) with
    | some p => ⟨p.x, p.y⟩
    | none => ⟨0, 0⟩
  | PinRef.dOut n =>
    match s.dOuts.find? (fun p => p.name = n) with
    | some p => ⟨p.x, p.y⟩
    | none => ⟨0, 0⟩

/-- Logical direction of a pin: DiagramInputPins act as OUTPUT sources,
DiagramOutputPins as INPUT sinks, block pins carry their own type. -/
def pinRefType : PinRef → PinType
  | PinRef.blockPin _ pt _ => pt
  | PinRef.dIn _ => PinType.OUTPUT
  | PinRef.dOut _ => PinType.INPUT

/-- The painter path of a wire, as maintained by Wire.update_geometry:
the routed curve between the current scene positions of its pins. -/
def wirePath (s : SceneM) (w : WireM) : BezierM :=
  calculate_path (pinScenePos s w.src) (pinScenePos s w.dst)
    (pinRefType w.src) (some (pinRefType w.dst)) false

/-- External Qt geometry routines used by the cost evaluator, modelled
as an oracle: boolean painter-path intersection tests, the detailed
bounding-box-area penalties of the stroked shapes (none when the
intersection is empty), and painter-path arc length. -/
structure GeomOracle where
  pathIntersects : BezierM → BezierM → Bool
  detailedWirePenalty : BezierM → BezierM → Option ℚ
  pathIntersectsRect : BezierM → QRectF → Bool
  detailedBlockPenalty : BezierM → QRectF → Option ℚ
  pathLength : BezierM → ℚ

/-- itertools.combinations(l, 2): all unordered pairs in list order. -/
def pairsOf : List α → List (α × α)
  | [] => []
  | x :: xs => xs.map (fun y => (x, y)) ++ pairsOf xs

/-- Parent block name of a pin (None for diagram pins). -/
def pinParentBlock : PinRef → Option String
  | PinRef.blockPin bname _ _ => some bname
  | PinRef.dIn _ => none
  | PinRef.dOut _ => none

/-- The amount one unordered wire pair adds to the intersection score:
zero when the two wires share an endpoint pin; otherwise, in detailed
mode the bounding-box area of the shape intersection, and in the default
boolean mode 1.0 when the routed curves intersect. -/
def wireWirePenalty (g : GeomOracle) (s : SceneM) (w1 w2 : WireM) : ℚ :=
  let disjoint : Bool :=
    w1.src ≠ w2.src && w1.src ≠ w2.dst && w1.dst ≠ w2.src && w1.dst ≠ w2.dst
  if disjoint then
    if USE_DETAILED_INTERSECTION_CHECK then
      match g.detailedWirePenalty (wirePath s w1) (wirePath s w2) with
      | some penalty => penalty
      | none => 0
    else
      if g.pathIntersects (wirePath s w1) (wirePath s w2) then 1 else 0
  else 0

/-- The amount one (wire, block) pair adds to the intersection score:
zero when the block is a parent of one of the wire endpoints; otherwise,
in detailed mode the bounding-box area of the intersection of the wire
shape with the block rectangle, and in the default boolean mode 1.0 when
the curve intersects the block scene rect. -/
def wireBlockPenalty (g : GeomOracle) (s : SceneM) (w : WireM) (b : BlockM) : ℚ :=
  let connected : Bool :=
    (pinParentBlock w.src).any (fun n => n = b.name)
    || (pinParentBlock w.dst).any (fun n => n = b.name)
  if connected then 0
  else
    if USE_DETAILED_INTERSECTION_CHECK then
      match g.detailedBlockPenalty (wirePath s w) (blockSceneRect b) with
      | some penalty => penalty
      | none => 0
    else
      if g.pathIntersectsRect (wirePath s w) (blockSceneRect b) then 1 else 0

/-- MainWindow._calculate_intersection_score: wire-wire penalties over
all unordered wire pairs plus wire-block penalties over all wire and
block combinations. -/
def _calculate_intersection_score (g : GeomOracle) (s : SceneM) : ℚ :=
  ((pairsOf s.wires).map (fun q => wireWirePenalty g s q.1 q.2)).sum
  + (s.wires.map (fun w => (s.blocks.map (fun b => wireBlockPenalty g s w b)).sum)).sum

/-- MainWindow._calculate_total_wire_length: sum of the arc lengths of
all wire paths. -/
def _calculate_total_wire_length (g : GeomOracle) (s : SceneM) : ℚ :=
  (s.wires.map (fun w => g.pathLength (wirePath s w))).sum

/-- The two optional entries of the cost_params dictionary read by
calculate_diagram_cost. -/
structure CostParams where
  intersectionWeight : Option ℚ
  wirelengthWeight : Option ℚ

/-- MainWindow.calculate_diagram_cost: weighted sum of the intersection
score and the total wire length, the weights taken from cost_params with
the conf.py defaults. -/
def calculate_diagram_cost (g : GeomOracle) (s : SceneM) (costParams : CostParams) : ℚ :=
  let intersectionWeight := costParams.intersectionWeight.getD COST_FUNCTION_INTERSECTION_WEIGHT
  let wirelengthWeight := costParams.wirelengthWeight.getD COST_FUNCTION_WIRELENGTH_WEIGHT
  _calculate_intersection_score g s * intersectionWeight
    + _calculate_total_wire_length g s * wirelengthWeight

-- The move applier and the optimization loop.

/-- An optimization move as stored in the possible_moves dictionaries:
the target is identified by name (the dictionaries hold the objects; the
name determines the object under the uniqueness invariants).  A diagram
pin reorder move stores only the direction: the pins entry of the
dictionary is the list of all diagram pins of that class, which does not
change during an optimization run. -/
inductive MoveM where
  | moveBlock (blockName : String)
  | reorderBlockPins (blockName : String) (pt : PinType)
  | reorderDiagramPins (pt : PinType)
deriving DecidableEq, Repr

/-- Oracle for the randomness one move application consumes: the two
random.uniform offsets of a block move and the random.shuffle outcome of
a reorder move (a permutation applied to the current order). -/
structure RandM where
  dx : ℚ
  dy : ℚ
  shuffle : List String → List String

/-- The data captured by the revert closure that
_apply_and_evaluate_move returns. -/
inductive RevertM where
  | moveBlockRev (blockName : String) (x y : ℚ)
  | blockPinOrderRev (blockName : String) (pt : PinType) (order : List String)
  | diagramPinOrderRev (pt : PinType) (order : List String)
deriving DecidableEq, Repr

/-- Run a revert closure: each closure replays the captured original
position or ordering through the same programmatic API. -/
def execRevert (r : RevertM) (s : SceneM) : SceneM :=
  match r with
  | RevertM.moveBlockRev n x y => (move_block s n x y).1
  | RevertM.blockPinOrderRev n pt order => (set_block_pin_order s n pt order).1
  | RevertM.diagramPinOrderRev pt order => (set_diagram_pin_order s pt order).1

/-- optimization._apply_and_evaluate_move: apply one trial move, return
the mutated scene, its cost and the revert closure; none when the move
is invalid (locked block, or the snapped target rectangle collides with
another Block or DiagramPin). -/
def _apply_and_evaluate_move (costOf : SceneM → ℚ) (s : SceneM) (mv : MoveM)
    (rand : RandM) : Option (SceneM × ℚ × RevertM) :=
  match mv with
  | MoveM.moveBlock bname =>
    match findBlock s bname with
    | none => none
    | some b =>
      if b.locked then none
      else
        let newX := b.x + rand.dx
        let newY := b.y + rand.dy
        let sx := snap newX
        let sy := snap newY
        let proposedRect : QRectF := ⟨sx, sy, b.w, b.h⟩
        if _is_rect_overlapping s proposedRect (some bname) then none
        else
          let s2 := (move_block s bname sx sy).1
          some (s2, costOf s2, RevertM.moveBlockRev bname b.x b.y)
  | MoveM.reorderBlockPins bname pt =>
    match findBlock s bname with
    | none => none
    | some b =>
      let pins := if pt = PinType.INPUT then b.inputPins else b.outputPins
      let originalOrder := (sortByIndex pins).map (fun p => p.name)
      let newOrder := rand.shuffle originalOrder
      let s2 := (set_block_pin_order s bname pt newOrder).1
      some (s2, costOf s2, RevertM.blockPinOrderRev bname pt originalOrder)
  | MoveM.reorderDiagramPins pt =>
    let pins := if pt = PinType.OUTPUT then s.dIns else s.dOuts
    let originalOrder := (sortByY pins).map (fun p => p.name)
    let newOrder := rand.shuffle originalOrder
    let s2 := (set_diagram_pin_order s pt newOrder).1
    some (s2, costOf s2, RevertM.diagramPinOrderRev pt originalOrder)

/-- Oracle inputs consumed by one iteration of the optimization loop:
the shutdown flag observed at the iteration boundary, the move chosen by
random.choice, the randomness the move application consumes, and the
uniform draw a strategy may consume internally (random.random in the
simulated annealing strategy). -/
structure IterIn where
  shutdown : Bool
  move : MoveM
  rand : RandM
  draw : ℚ

/-- The loop state of _run_optimization_loop: the scene, the tracked
current cost, and the mutable strategy state dictionary. -/
structure LoopSt (S : Type) where
  scene : SceneM
  cost : ℚ
  sstate : S

/-- One iteration body of _run_optimization_loop: apply and evaluate the
move; on an invalid move skip (continue); otherwise consult the strategy
with the current and new costs and the strategy state, keep the new
scene and cost on accept, run the revert closure on reject, and in
either case run the post-iteration hook on the strategy state. -/
def loopIter {S : Type} (costOf : SceneM → ℚ) (strat : ℚ → ℚ → S → ℚ → Bool)
    (hook : Option (S → S)) (ls : LoopSt S) (inp : IterIn) : LoopSt S :=
  match _apply_and_evaluate_move costOf ls.scene inp.move inp.rand with
  | none => ls
  | some (s2, newCost, revertClosure) =>
    let accepted := strat ls.cost newCost ls.sstate inp.draw
    let scene2 := if accepted then s2 else execRevert revertClosure s2
    let cost2 := if accepted then newCost else ls.cost
    let sstate2 := match hook with | none => ls.sstate | some hk => hk ls.sstate
    ⟨scene2, cost2, sstate2⟩

/-- The iteration sequence of _run_optimization_loop: the shutdown flag
is checked once per iteration boundary and breaks out of the loop. -/
def runLoopAux {S : Type} (costOf : SceneM → ℚ) (strat : ℚ → ℚ → S → ℚ → Bool)
    (hook : Option (S → S)) : List IterIn → LoopSt S → LoopSt S
  | [], ls => ls
  | inp :: rest, ls =>
    if inp.shutdown then ls
    else runLoopAux costOf strat hook rest (loopIter costOf strat hook ls inp)

/-- optimization._run_optimization_loop: compute the initial cost, run
the iterations, and return the final loop state (the source returns its
cost component). -/
def _run_optimization_loop {S : Type} (costOf : SceneM → ℚ)
    (strat : ℚ → ℚ → S → ℚ → Bool) (hook : Option (S → S))
    (sstate0 : S) (s0 : SceneM) (inps : List IterIn) : LoopSt S :=
  runLoopAux costOf strat hook inps ⟨s0, costOf s0, sstate0⟩

/-- The successive values of current_cost after each executed iteration
(the trace stops where the shutdown flag breaks the loop). -/
def costTrace {S : Type} (costOf : SceneM → ℚ) (strat : ℚ → ℚ → S → ℚ → Bool)
    (hook : Option (S → S)) : List IterIn → LoopSt S → List ℚ
  | [], _ => []
  | inp :: rest, ls =>
    if inp.shutdown then []
    else
      let ls2 := loopIter costOf strat hook ls inp
      ls2.cost :: costTrace costOf strat hook rest ls2

/-- optimization._hill_climbing_strategy: accept exactly the strict
improvements.  The strategy state is empty and no draw is consumed. -/
def _hill_climbing_strategy (currentCost newCost : ℚ) (_state : Unit) (_draw : ℚ) : Bool :=
  newCost < currentCost

/-- optimization.run_randomized_hill_climbing: the generic loop with the
hill-climbing strategy, an empty strategy state and no hook; the cost
evaluator runs with the supplied cost parameters. -/
def run_randomized_hill_climbing (g : GeomOracle) (params : CostParams)
    (s0 : SceneM) (inps : List IterIn) : LoopSt Unit :=
  _run_optimization_loop (fun s => calculate_diagram_cost g s params)
    _hill_climbing_strategy none () s0 inps

open Classical in
/-- optimization._simulated_annealing_strategy: accept unconditionally
when delta is negative; reject when the temperature read from the
strategy state is below OPTIMIZER_SA_MIN_TEMPERATURE; otherwise accept
exactly when the uniform draw is below exp(-delta / temperature). -/
noncomputable def _simulated_annealing_strategy (currentCost newCost : ℚ)
    (temperature : ℚ) (draw : ℚ) : Bool :=
  let delta := newCost - currentCost
  if delta < 0 then true
  else if temperature < OPTIMIZER_SA_MIN_TEMPERATURE then false
  else if (draw : ℝ) < Real.exp (-(delta : ℝ) / (temperature : ℝ)) then true
  else false

/-- The sa_post_hook closure of run_simulated_annealing: multiply the
temperature in the strategy state by the cooling rate. -/
def sa_post_hook (coolingRate : ℚ) (temperature : ℚ) : ℚ :=
  temperature * coolingRate

/-- optimization.run_simulated_annealing: the generic loop with the
simulated annealing strategy, the initial temperature as strategy state
and the cooling hook. -/
noncomputable def run_simulated_annealing (g : GeomOracle) (params : CostParams)
    (initialTemp coolingRate : ℚ) (s0 : SceneM) (inps : List IterIn) : LoopSt ℚ :=
  _run_optimization_loop (fun s => calculate_diagram_cost g s params)
    _simulated_annealing_strategy (some (sa_post_hook coolingRate)) initialTemp s0 inps

-- Lock queries and move generation.

/-- The wires incident to a pin (the wires list the pin object keeps as
back references). -/
def incidentWires (s : SceneM) (r : PinRef) : List WireM :=
  s.wires.filter (fun w => w.src = r || w.dst = r)

/-- PinMixin.is_locked: a pin is locked exactly when one of its incident
wires is locked; pins store no lock flag of their own. -/
def pin_is_locked (s : SceneM) (r : PinRef) : Bool :=
  (incidentWires s r).any (fun w => w.locked)

/-- The possible_moves list built by MainWindow._run_optimizer_logic:
one MoveBlock per unlocked block; one ReorderBlockPins per block and
direction with more than one pin of that direction, none of them locked;
one ReorderDiagramPins per diagram pin class with more than one pin,
none of them locked. -/
def buildPossibleMoves (s : SceneM) : List MoveM :=
  (s.blocks.filter (fun b => !b.locked)).map (fun b => MoveM.moveBlock b.name)
  ++ s.blocks.flatMap (fun b =>
      (if b.inputPins.length > 1
          ∧ ¬ b.inputPins.any (fun p => pin_is_locked s (PinRef.blockPin b.name PinType.INPUT p.name))
       then [MoveM.reorderBlockPins b.name PinType.INPUT] else [])
      ++ (if b.outputPins.length > 1
          ∧ ¬ b.outputPins.any (fun p => pin_is_locked s (PinRef.blockPin b.name PinType.OUTPUT p.name))
       then [MoveM.reorderBlockPins b.name PinType.OUTPUT] else []))
  ++ (if s.dIns.length > 1 ∧ ¬ s.dIns.any (fun p => pin_is_locked s (PinRef.dIn p.name))
      then [MoveM.reorderDiagramPins PinType.OUTPUT] else [])
  ++ (if s.dOuts.length > 1 ∧ ¬ s.dOuts.any (fun p => pin_is_locked s (PinRef.dOut p.name))
      then [MoveM.reorderDiagramPins PinType.INPUT] else [])

-- Helper lemmas for the hill-climbing loop.

/-- One hill-climbing iteration never increases the tracked cost. -/
theorem hc_loopIter_cost_le (costOf : SceneM → ℚ) (ls : LoopSt Unit) (inp : IterIn) :
    (loopIter costOf _hill_climbing_strategy none ls inp).cost ≤ ls.cost := by
  unfold loopIter
  cases happly : _apply_and_evaluate_move costOf ls.scene inp.move inp.rand with
  | none => exact le_refl _
  | some r =>
    obtain ⟨s2, newCost, rev⟩ := r
    simp only
    split_ifs with hacc
    · exact le_of_lt (by simpa [_hill_climbing_strategy] using hacc)
    · exact le_refl _

/-- The cost trace of the hill-climbing loop is non-increasing. -/
theorem hc_trace_chain (costOf : SceneM → ℚ) :
    ∀ (inps : List IterIn) (ls : LoopSt Unit),
      List.Chain' (fun a b => b ≤ a)
        (ls.cost :: costTrace costOf _hill_climbing_strategy none inps ls) := by
  intro inps
  induction inps with
  | nil => intro ls; simp [costTrace]
  | cons inp rest ih =>
    intro ls
    by_cases hsh : inp.shutdown
    · simp [costTrace, hsh]
    · have h2 := ih (loopIter costOf _hill_climbing_strategy none ls inp)
      simp only [costTrace, hsh, if_neg, Bool.false_eq_true, ite_false]
      exact List.chain'_cons.2 ⟨hc_loopIter_cost_le costOf ls inp, h2⟩

/-- The hill-climbing loop never returns a cost above the starting one. -/
theorem hc_runLoopAux_cost_le (costOf : SceneM → ℚ) :
    ∀ (inps : List IterIn) (ls : LoopSt Unit),
      (runLoopAux costOf _hill_climbing_strategy none inps ls).cost ≤ ls.cost := by
  intro inps
  induction inps with
  | nil => intro ls; exact le_refl _
  | cons inp rest ih =>
    intro ls
    by_cases hsh : inp.shutdown
    · simp [runLoopAux, hsh]
    · simp only [runLoopAux, hsh, Bool.false_eq_true, ite_false]
      exact le_trans (ih _) (hc_loopIter_cost_le costOf ls inp)

/-- C2.  Under the hill-climbing strategy a trial move is accepted
exactly when the new cost is strictly below the current one; in every
run of run_randomized_hill_climbing the tracked current_cost is
non-increasing across the iterations, and the returned final cost is at
most the initial cost computed before the loop. -/
theorem c2_hill_climbing_monotone (g : GeomOracle) (params : CostParams)
    (s0 : SceneM) (inps : List IterIn) :
    (∀ (c n : ℚ) (st : Unit) (d : ℚ), _hill_climbing_strategy c n st d = true ↔ n < c)
    ∧ List.Chain' (fun a b => b ≤ a)
        (calculate_diagram_cost g s0 params ::
          costTrace (fun s => calculate_diagram_cost g s params) _hill_climbing_strategy none
            inps ⟨s0, calculate_diagram_cost g s0 params, ()⟩)
    ∧ (run_randomized_hill_climbing g params s0 inps).cost ≤ calculate_diagram_cost g s0 params := by
  refine ⟨?_, ?_, ?_⟩
  · intro c n st d
    simp [_hill_climbing_strategy]
  · exact hc_trace_chain (fun s => calculate_diagram_cost g s params) inps
      ⟨s0, calculate_diagram_cost g s0 params, ()⟩
  · exact hc_runLoopAux_cost_le (fun s => calculate_diagram_cost g s params) inps
      ⟨s0, calculate_diagram_cost g s0 params, ()⟩

/-- C3.  The simulated-annealing strategy accepts exactly when delta is
negative, or the temperature is at least the frozen threshold and the
uniform draw is below exp(-delta / temperature); in particular a
non-negative delta is always rejected below the threshold.  The
post-iteration hook multiplies the temperature by the cooling rate, and
the loop applies it exactly on the iterations whose move application was
counted (not skipped as invalid). -/
theorem c3_simulated_annealing_strategy (current new temp draw cooling t : ℚ)
    (costOf : SceneM → ℚ) (ls : LoopSt ℚ) (inp : IterIn) :
    (_simulated_annealing_strategy current new temp draw = true ↔
      (new - current < 0 ∨
        (OPTIMIZER_SA_MIN_TEMPERATURE ≤ temp ∧
          (draw : ℝ) < Real.exp (-((new - current : ℚ) : ℝ) / ((temp : ℚ) : ℝ)))))
    ∧ sa_post_hook cooling t = t * cooling
    ∧ ((loopIter costOf _simulated_annealing_strategy (some (sa_post_hook cooling)) ls inp).sstate
        = if (_apply_and_evaluate_move costOf ls.scene inp.move inp.rand).isSome
          then sa_post_hook cooling ls.sstate else ls.sstate) := by
  refine ⟨?_, rfl, ?_⟩
  · unfold _simulated_annealing_strategy
    by_cases h1 : new - current < 0
    · simp [h1]
    · by_cases h2 : temp < OPTIMIZER_SA_MIN_TEMPERATURE
      · simp only [if_neg h1, if_pos h2, Bool.false_eq_true, false_iff]
        rintro (h | ⟨hle, _⟩)
        · exact h1 h
        · exact absurd h2 (not_lt.2 hle)
      · by_cases h3 : (draw : ℝ) < Real.exp (-((new - current : ℚ) : ℝ) / ((temp : ℚ) : ℝ))
        · simp only [if_neg h1, if_neg h2, if_pos h3, true_iff]
          exact Or.inr ⟨not_lt.1 h2, h3⟩
        · simp only [if_neg h1, if_neg h2, if_neg h3, Bool.false_eq_true, false_iff]
          rintro (h | ⟨_, h⟩)
          · exact h1 h
          · exact h3 h
  · cases happly : _apply_and_evaluate_move costOf ls.scene inp.move inp.rand with
    | none => simp [loopIter, happly]
    | some r => obtain ⟨s2, newCost, rev⟩ := r; simp [loopIter, happly]

/-- C4.  The total cost is intersection score times intersection weight
plus wire length score times wire length weight, the weights taken from
the cost parameters of the caller with defaults 100.0 and 0.1. -/
theorem c4_cost_formula (g : GeomOracle) (s : SceneM) (p : CostParams) :
    calculate_diagram_cost g s p
      = _calculate_intersection_score g s * p.intersectionWeight.getD COST_FUNCTION_INTERSECTION_WEIGHT
        + _calculate_total_wire_length g s * p.wirelengthWeight.getD COST_FUNCTION_WIRELENGTH_WEIGHT
    ∧ COST_FUNCTION_INTERSECTION_WEIGHT = 100
    ∧ COST_FUNCTION_WIRELENGTH_WEIGHT = 1/10 :=
  ⟨rfl, rfl, rfl⟩

/-- C5.  A wire pair sharing an endpoint pin contributes nothing to the
wire-wire intersection term whatever the oracle reports for their
curves; a pair sharing no endpoint whose curves intersect contributes
exactly 1.0 in the default boolean counting mode. -/
theorem c5_wire_sharing_exemption (g : GeomOracle) (s : SceneM) (w1 w2 : WireM) :
    (¬ (w1.src ≠ w2.src ∧ w1.src ≠ w2.dst ∧ w1.dst ≠ w2.src ∧ w1.dst ≠ w2.dst) →
      wireWirePenalty g s w1 w2 = 0)
    ∧ ((w1.src ≠ w2.src ∧ w1.src ≠ w2.dst ∧ w1.dst ≠ w2.src ∧ w1.dst ≠ w2.dst) →
        g.pathIntersects (wirePath s w1) (wirePath s w2) = true →
        wireWirePenalty g s w1 w2 = 1) := by
  constructor
  · intro hshare
    unfold wireWirePenalty
    simp only
    rw [if_neg]
    intro hb
    exact hshare (by simpa [Bool.and_eq_true, decide_eq_true_eq, and_assoc] using hb)
  · intro hdisj hint
    unfold wireWirePenalty
    simp only
    rw [if_pos (by simp [Bool.and_eq_true, decide_eq_true_eq, hdisj.1, hdisj.2.1, hdisj.2.2.1, hdisj.2.2.2])]
    simp [USE_DETAILED_INTERSECTION_CHECK, hint]

/-- C7.  The placement search is a pure function of the scene, the item
size, the ignored item, the hint and the centering flag: two calls with
equal inputs return the identical position (no randomness or hidden
state is consulted). -/
theorem c7_placement_deterministic (s1 s2 : SceneM) (w1 w2 h1 h2 : ℚ)
    (ig1 ig2 : Option String) (hint1 hint2 : QPointF) (c1 c2 : Bool)
    (hs : s1 = s2) (hw : w1 = w2) (hh : h1 = h2) (hig : ig1 = ig2)
    (hhint : hint1 = hint2) (hc : c1 = c2) :
    find_safe_placement s1 w1 h1 ig1 hint1 c1 = find_safe_placement s2 w2 h2 ig2 hint2 c2 := by
  subst hs; subst hw; subst hh; subst hig; subst hhint; subst hc; rfl

/-- Membership in a conditional singleton list. -/
theorem memIfSingleton {α : Type} (c : Prop) [Decidable c] (a x : α)
    (h : x ∈ (if c then [a] else [])) : c ∧ x = a := by
  by_cases hc : c
  · rw [if_pos hc] at h
    exact ⟨hc, List.mem_singleton.1 h⟩
  · rw [if_neg hc] at h
    exact absurd h (List.not_mem_nil x)

/-- C9.  When the grid-snapped target rectangle of a MoveBlock trial
overlaps another Block or DiagramPin, _apply_and_evaluate_move returns
none without touching the scene, and the loop iteration leaves scene,
tracked cost and strategy state unchanged, with the same outcome for
any two acceptance strategies (the strategy is never consulted). -/
theorem c9_invalid_move_skipped {S : Type} (costOf : SceneM → ℚ) (s : SceneM)
    (bname : String) (rand : RandM) (b : BlockM)
    (strat strat2 : ℚ → ℚ → S → ℚ → Bool) (hook : Option (S → S))
    (c0 : ℚ) (st : S) (draw : ℚ) (sh : Bool)
    (hfind : findBlock s bname = some b)
    (hoverlap : _is_rect_overlapping s
      ⟨snap (b.x + rand.dx), snap (b.y + rand.dy), b.w, b.h⟩ (some bname) = true) :
    _apply_and_evaluate_move costOf s (MoveM.moveBlock bname) rand = none
    ∧ loopIter costOf strat hook ⟨s, c0, st⟩ ⟨sh, MoveM.moveBlock bname, rand, draw⟩ = ⟨s, c0, st⟩
    ∧ loopIter costOf strat hook ⟨s, c0, st⟩ ⟨sh, MoveM.moveBlock bname, rand, draw⟩
      = loopIter costOf strat2 hook ⟨s, c0, st⟩ ⟨sh, MoveM.moveBlock bname, rand, draw⟩ := by
  have happly : _apply_and_evaluate_move costOf s (MoveM.moveBlock bname) rand = none := by
    simp only [_apply_and_evaluate_move]
    rw [hfind]
    by_cases hl : b.locked
    · simp [hl]
    · simp [hl, hoverlap]
  refine ⟨happly, ?_, ?_⟩
  · simp [loopIter, happly]
  · simp [loopIter, happly]

/-- Scene for the C9 witness: two identical side-by-side blocks; moving
the second one 200 units left lands exactly on the first. -/
def c9Scene : SceneM :=
  { blocks := [⟨"B1", 0, 0, 160, 40, 0, 0, false, [], []⟩,
               ⟨"B2", 200, 0, 160, 40, 0, 0, false, [], []⟩],
    dIns := [], dOuts := [], wires := [] }

/-- Witness for C9 at a concrete colliding move. -/
theorem c9_invalid_move_skipped_witness :
    _apply_and_evaluate_move (fun _ => 0) c9Scene (MoveM.moveBlock "B2") ⟨-200, 0, id⟩ = none
    ∧ loopIter (fun _ => 0) (fun _ _ _ _ => true) none ⟨c9Scene, 7, ()⟩
        ⟨false, MoveM.moveBlock "B2", ⟨-200, 0, id⟩, 0⟩ = ⟨c9Scene, 7, ()⟩
    ∧ loopIter (fun _ => 0) (fun _ _ _ _ => true) none ⟨c9Scene, 7, ()⟩
        ⟨false, MoveM.moveBlock "B2", ⟨-200, 0, id⟩, 0⟩
      = loopIter (fun _ => 0) (fun _ _ _ _ => false) none ⟨c9Scene, 7, ()⟩
        ⟨false, MoveM.moveBlock "B2", ⟨-200, 0, id⟩, 0⟩ :=
  c9_invalid_move_skipped (fun _ => 0) c9Scene "B2" ⟨-200, 0, id⟩
    ⟨"B2", 200, 0, 160, 40, 0, 0, false, [], []⟩
    (fun _ _ _ _ => true) (fun _ _ _ _ => false) none 7 () 0 false
    (by with_unfolding_all decide) (by with_unfolding_all decide)

/-- C10.  A pin reports locked exactly when one of its incident wires is
locked (there is no stored pin lock flag), and the move generator emits
a pin-reorder move only when no pin of the group has a locked incident
wire. -/
theorem c10_pin_locks_derived (s : SceneM) (r : PinRef) (bname : String) (pt : PinType) :
    (pin_is_locked s r = true ↔ ∃ w ∈ s.wires, (w.src = r ∨ w.dst = r) ∧ w.locked = true)
    ∧ (MoveM.reorderBlockPins bname pt ∈ buildPossibleMoves s →
        ∃ b ∈ s.blocks, b.name = bname ∧
          ∀ p ∈ (if pt = PinType.INPUT then b.inputPins else b.outputPins),
            pin_is_locked s (PinRef.blockPin b.name pt p.name) = false)
    ∧ (MoveM.reorderDiagramPins PinType.OUTPUT ∈ buildPossibleMoves s →
        ∀ p ∈ s.dIns, pin_is_locked s (PinRef.dIn p.name) = false)
    ∧ (MoveM.reorderDiagramPins PinType.INPUT ∈ buildPossibleMoves s →
        ∀ p ∈ s.dOuts, pin_is_locked s (PinRef.dOut p.name) = false) := by
  refine ⟨?_, ?_, ?_, ?_⟩
  · simp only [pin_is_locked, incidentWires, List.any_eq_true, List.mem_filter,
      Bool.or_eq_true, decide_eq_true_eq]
    constructor
    · rintro ⟨w, ⟨hmem, hor⟩, hlk⟩
      exact ⟨w, hmem, hor, hlk⟩
    · rintro ⟨w, hmem, hor, hlk⟩
      exact ⟨w, ⟨hmem, hor⟩, hlk⟩
  · intro hmem
    simp only [buildPossibleMoves, List.mem_append, List.mem_map, List.mem_filter,
      List.mem_flatMap] at hmem
    rcases hmem with ((⟨b, _, heq⟩ | ⟨b, hb, hin2 | hin2⟩) | h) | h
    · simp at heq
    · obtain ⟨hc, heq⟩ := memIfSingleton _ _ _ hin2
      injection heq with h1 h2
      refine ⟨b, hb, h1.symm, ?_⟩
      subst h2
      simp only [if_pos rfl]
      intro p hp
      by_contra hlk
      exact hc.2 (List.any_eq_true.2 ⟨p, hp, by simpa using hlk⟩)
    · obtain ⟨hc, heq⟩ := memIfSingleton _ _ _ hin2
      injection heq with h1 h2
      refine ⟨b, hb, h1.symm, ?_⟩
      subst h2
      simp only [reduceCtorEq, if_neg]
      intro p hp
      by_contra hlk
      exact hc.2 (List.any_eq_true.2 ⟨p, hp, by simpa using hlk⟩)
    · obtain ⟨_, heq⟩ := memIfSingleton _ _ _ h
      simp at heq
    · obtain ⟨_, heq⟩ := memIfSingleton _ _ _ h
      simp at heq
  · intro hmem
    simp only [buildPossibleMoves, List.mem_append, List.mem_map, List.mem_filter,
      List.mem_flatMap] at hmem
    rcases hmem with ((⟨b, _, heq⟩ | ⟨b, _, hin2 | hin2⟩) | h) | h
    · simp at heq
    · obtain ⟨_, heq⟩ := memIfSingleton _ _ _ hin2
      simp at heq
    · obtain ⟨_, heq⟩ := memIfSingleton _ _ _ hin2
      simp at heq
    · obtain ⟨hc, _⟩ := memIfSingleton _ _ _ h
      intro p hp
      by_contra hlk
      exact hc.2 (List.any_eq_true.2 ⟨p, hp, by simpa using hlk⟩)
    · obtain ⟨_, heq⟩ := memIfSingleton _ _ _ h
      simp at heq
  · intro hmem
    simp only [buildPossibleMoves, List.mem_append, List.mem_map, List.mem_filter,
      List.mem_flatMap] at hmem
    rcases hmem with ((⟨b, _, heq⟩ | ⟨b, _, hin2 | hin2⟩) | h) | h
    · simp at heq
    · obtain ⟨_, heq⟩ := memIfSingleton _ _ _ hin2
      simp at heq
    · obtain ⟨_, heq⟩ := memIfSingleton _ _ _ hin2
      simp at heq
    · obtain ⟨_, heq⟩ := memIfSingleton _ _ _ h
      simp at heq
    · obtain ⟨hc, _⟩ := memIfSingleton _ _ _ h
      intro p hp
      by_contra hlk
      exact hc.2 (List.any_eq_true.2 ⟨p, hp, by simpa using hlk⟩)

/-- Scene for the C10 witness: one block with two unlocked input pins,
two diagram inputs, one unlocked wire. -/
def c10Scene : SceneM :=
  { blocks := [⟨"blk", 0, 0, 160, 60, 0, 0, false, [⟨"a", 0⟩, ⟨"b", 1⟩], []⟩],
    dIns := [⟨"I1", -120, 40⟩, ⟨"I2", -120, 80⟩],
    dOuts := [],
    wires := [⟨PinRef.dIn "I1", PinRef.blockPin "blk" PinType.INPUT "a", false⟩] }

/-- Witness for C10 at a concrete scene with emitted reorder moves. -/
theorem c10_pin_locks_derived_witness :
    (pin_is_locked c10Scene (PinRef.dIn "I1") = true ↔
      ∃ w ∈ c10Scene.wires,
        (w.src = PinRef.dIn "I1" ∨ w.dst = PinRef.dIn "I1") ∧ w.locked = true)
    ∧ (∃ b ∈ c10Scene.blocks, b.name = "blk" ∧
        ∀ p ∈ (if PinType.INPUT = PinType.INPUT then b.inputPins else b.outputPins),
          pin_is_locked c10Scene (PinRef.blockPin b.name PinType.INPUT p.name) = false)
    ∧ (∀ p ∈ c10Scene.dIns, pin_is_locked c10Scene (PinRef.dIn p.name) = false) :=
  ⟨(c10_pin_locks_derived c10Scene (PinRef.dIn "I1") "blk" PinType.INPUT).1,
   (c10_pin_locks_derived c10Scene (PinRef.dIn "I1") "blk" PinType.INPUT).2.1 (by decide),
   (c10_pin_locks_derived c10Scene (PinRef.dIn "I1") "blk" PinType.INPUT).2.2.1 (by decide)⟩

/-- C8 (amended).  When the loop observes the shutdown flag at an
iteration boundary it stops immediately: the result is the loop state
reached after the iterations before the boundary, so the returned value
is the tracked current cost at that boundary (equal to the best cost
reached only under strict-improvement acceptance) and the scene is the
one left by the last completed iteration - no partially applied move
survives the boundary. -/
theorem c8_cancellation_returns_current_cost {S : Type} (costOf : SceneM → ℚ)
    (strat : ℚ → ℚ → S → ℚ → Bool) (hook : Option (S → S))
    (pre post : List IterIn) (inp : IterIn) (ls : LoopSt S)
    (hpre : ∀ j ∈ pre, j.shutdown = false) (hsh : inp.shutdown = true) :
    runLoopAux costOf strat hook (pre ++ inp :: post) ls
      = runLoopAux costOf strat hook pre ls := by
  revert hpre
  induction pre generalizing ls with
  | nil =>
    intro _
    simp [runLoopAux, hsh]
  | cons j rest ih =>
    intro hpre
    have hj : j.shutdown = false := hpre j (List.mem_cons_self j rest)
    simp only [List.cons_append, runLoopAux, hj, Bool.false_eq_true, ite_false]
    exact ih _ (fun k hk => hpre k (List.mem_cons_of_mem j hk))

/-- Witness for the amended C8 at a concrete cancelled run. -/
theorem c8_cancellation_returns_current_cost_witness :
    runLoopAux (fun _ => 0) (fun _ _ _ _ => true) none
      ([] ++ (⟨true, MoveM.reorderDiagramPins PinType.OUTPUT, ⟨0, 0, id⟩, 0⟩ : IterIn) :: [])
      ⟨c9Scene, 5, ()⟩
      = runLoopAux (fun _ => 0) (fun _ _ _ _ => true) none [] ⟨c9Scene, 5, ()⟩ :=
  c8_cancellation_returns_current_cost (fun _ => 0) (fun _ _ _ _ => true) none [] []
    ⟨true, MoveM.reorderDiagramPins PinType.OUTPUT, ⟨0, 0, id⟩, 0⟩ ⟨c9Scene, 5, ()⟩
    (fun j hj => absurd hj (List.not_mem_nil j)) rfl

/-- Geometry oracle for the C8 counterexample: no curve intersections,
and the horizontal endpoint distance as the reported path length. -/
def dxOracle : GeomOracle :=
  ⟨fun _ _ => false, fun _ _ => none, fun _ _ => false, fun _ _ => none,
   fun bz => bz.p3.x - bz.p0.x⟩

/-- Scene for the C8 counterexample: two blocks joined by one wire. -/
def c8Scene : SceneM :=
  { blocks := [⟨"B1", 0, 0, 160, 40, 0, 0, false, [], [⟨"o", 0⟩]⟩,
               ⟨"B2", 400, 0, 160, 40, 0, 0, false, [⟨"i", 0⟩], []⟩],
    dIns := [], dOuts := [],
    wires := [⟨PinRef.blockPin "B1" PinType.OUTPUT "o",
               PinRef.blockPin "B2" PinType.INPUT "i", false⟩] }

/-- The C8 counterexample scene after the accepted uphill move. -/
def c8SceneAfter : SceneM :=
  { blocks := [⟨"B1", 0, 0, 160, 40, 0, 0, false, [], [⟨"o", 0⟩]⟩,
               ⟨"B2", 420, 0, 160, 40, 0, 0, false, [⟨"i", 0⟩], []⟩],
    dIns := [], dOuts := [],
    wires := [⟨PinRef.blockPin "B1" PinType.OUTPUT "o",
               PinRef.blockPin "B2" PinType.INPUT "i", false⟩] }

/-- The cost evaluator of the C8 counterexample run. -/
def c8cost : SceneM → ℚ :=
  fun s => calculate_diagram_cost dxOracle s ⟨none, none⟩

/-- Iteration oracle of the C8 counterexample run: one uphill block move
with a zero uniform draw, then a shutdown at the next boundary. -/
def c8Inps : List IterIn :=
  [⟨false, MoveM.moveBlock "B2", ⟨20, 0, id⟩, 0⟩,
   ⟨true, MoveM.moveBlock "B2", ⟨20, 0, id⟩, 0⟩]

/-- C8 (counterexample).  A simulated-annealing run that accepts one
uphill move (delta 2 at temperature 10, uniform draw 0) and is then
cancelled returns cost 26, although cost 24 - the initial cost - was
reached during the run: the cancelled loop returns the tracked current
cost, not the best cost reached so far. -/
theorem c8_cancellation_not_best_cost :
    calculate_diagram_cost dxOracle c8Scene ⟨none, none⟩ = 24
    ∧ (run_simulated_annealing dxOracle ⟨none, none⟩ 10 (995/1000) c8Scene c8Inps).cost = 26
    ∧ (24 : ℚ) < 26 := by
  have hinit : calculate_diagram_cost dxOracle c8Scene ⟨none, none⟩ = 24 := by
    with_unfolding_all decide
  have happly : _apply_and_evaluate_move c8cost c8Scene (MoveM.moveBlock "B2") ⟨20, 0, id⟩
      = some (c8SceneAfter, 26, RevertM.moveBlockRev "B2" 400 0) := by
    with_unfolding_all decide
  have hstrat : _simulated_annealing_strategy 24 26 10 0 = true := by
    unfold _simulated_annealing_strategy
    rw [if_neg (by norm_num), if_neg (by norm_num [OPTIMIZER_SA_MIN_TEMPERATURE]),
      if_pos (by simpa using Real.exp_pos (-(((26 : ℚ) - 24 : ℚ) : ℝ) / ((10 : ℚ) : ℝ)))]
  have hstep : loopIter c8cost _simulated_annealing_strategy
      (some (sa_post_hook (995/1000))) ⟨c8Scene, 24, 10⟩ ⟨false, MoveM.moveBlock "B2", ⟨20, 0, id⟩, 0⟩
      = ⟨c8SceneAfter, 26, sa_post_hook (995/1000) 10⟩ := by
    simp only [loopIter, happly]
    rw [hstrat]
    simp
  refine ⟨hinit, ?_, by norm_num⟩
  have hinit2 : c8cost c8Scene = 24 := hinit
  calc (run_simulated_annealing dxOracle ⟨none, none⟩ 10 (995/1000) c8Scene c8Inps).cost
      = (runLoopAux c8cost _simulated_annealing_strategy (some (sa_post_hook (995/1000)))
          [⟨true, MoveM.moveBlock "B2", ⟨20, 0, id⟩, 0⟩]
          (loopIter c8cost _simulated_annealing_strategy (some (sa_post_hook (995/1000)))
            ⟨c8Scene, c8cost c8Scene, 10⟩
            ⟨false, MoveM.moveBlock "B2", ⟨20, 0, id⟩, 0⟩)).cost := rfl
    _ = 26 := by rw [hinit2, hstep]; rfl

/-- Geometry oracle that reports no intersections and zero lengths, for
runs whose cost values are irrelevant. -/
def trivialOracle : GeomOracle :=
  ⟨fun _ _ => false, fun _ _ => none, fun _ _ => false, fun _ _ => none, fun _ => 0⟩

/-- Cost evaluator used in the C1 failing run. -/
def c1cost : SceneM → ℚ :=
  fun s => calculate_diagram_cost trivialOracle s ⟨none, none⟩

/-- Scene for the C1 failing input: one block, and two diagram input
pins whose stacking order (B before A, B added last) is the reverse of
their vertical order (A on top at y 40, B below at y 120).  Both pins
sit exactly where realign_diagram_pins puts two input pins of a
240-high super block, so the scene is a reachable steady state. -/
def c1Scene : SceneM :=
  { blocks := [⟨"blk", 0, 0, 160, 160, 0, 0, false, [], []⟩],
    dIns := [⟨"B", -120, 120⟩, ⟨"A", -120, 40⟩],
    dOuts := [],
    wires := [] }

/-- The C1 scene after applying a ReorderDiagramPins trial and running
the returned revert closure: the pins end up swapped (B at y 40, A at
y 120) instead of restored. -/
def c1SceneReverted : SceneM :=
  { blocks := [⟨"blk", 0, 0, 160, 160, 0, 0, false, [], []⟩],
    dIns := [⟨"B", -120, 40⟩, ⟨"A", -120, 120⟩],
    dOuts := [],
    wires := [] }

/-- C1 (code bug).  Applying a ReorderDiagramPins move (with the
identity shuffle outcome) and then running the revert closure does not
restore the diagram pin positions: set_diagram_pin_order encodes the
requested order in temporary y coordinates 0, 1, ... which the grid
snapping of the pin itemChange handler collapses to 0, so the realign
step orders the pins by scene stacking order instead, and the revert
leaves A and B swapped relative to the original scene. -/
theorem c1_diagram_pin_revert_not_roundtrip :
    Option.map (fun r => execRevert r.2.2 r.1)
      (_apply_and_evaluate_move c1cost c1Scene (MoveM.reorderDiagramPins PinType.OUTPUT)
        ⟨0, 0, id⟩)
      = some c1SceneReverted
    ∧ c1SceneReverted.dIns ≠ c1Scene.dIns := by
  with_unfolding_all decide

/-- Scene for the C6 failing input: a single wall block that covers the
snapped hint cell at the origin and every cell the placement walk
visits, while the grid cell two grid units below the hint is free. -/
def c6Scene : SceneM :=
  { blocks := [⟨"wall", -20, -20, 10240, 40, 0, 0, false, [], []⟩],
    dIns := [], dOuts := [], wires := [] }

set_option maxRecDepth 8000 in
/-- C6 (code bug).  On the C6 scene the grid cell (0, 40) is inside the
500-grid-unit search radius and its 20 by 20 rectangle overlaps
nothing, yet find_safe_placement returns the snapped hint (0, 0), whose
rectangle overlaps the wall block: the walk only ever tests the hint
cell and the 500 cells due east of it (the corner-turn conditions of
the while loop compare the pixel offsets with 1 although the step is a
full grid unit, so the walk turns once and then never again), misses
the free cell below, and falls back to the overlapping hint. -/
theorem c6_placement_misses_free_cell :
    find_safe_placement c6Scene 20 20 none ⟨0, 0⟩ false = ⟨0, 0⟩
    ∧ _is_rect_overlapping c6Scene ⟨0, 0, 20, 20⟩ none = true
    ∧ _is_rect_overlapping c6Scene ⟨0, 40, 20, 20⟩ none = false
    ∧ snap 0 = 0 ∧ snap 40 = 40
    ∧ (0 : ℚ) * 0 + 40 * 40
        < BLOCK_PLACEMENT_SEARCH_MAX_RADIUS * BLOCK_PLACEMENT_SEARCH_MAX_RADIUS := by
  with_unfolding_all decide

/-- A scene with no items. -/
def emptyScene : SceneM :=
  ⟨[], [], [], []⟩

/-- Geometry oracle that reports every pair of curves as intersecting. -/
def allIntersectOracle : GeomOracle :=
  ⟨fun _ _ => true, fun _ _ => none, fun _ _ => true, fun _ _ => none, fun _ => 0⟩

/-- Witness for C5: a pin-sharing pair contributes 0 even though the
oracle reports an intersection, and a disjoint intersecting pair
contributes exactly 1. -/
theorem c5_wire_sharing_exemption_witness :
    wireWirePenalty allIntersectOracle emptyScene
      ⟨PinRef.dIn "X", PinRef.dOut "Y", false⟩ ⟨PinRef.dIn "X", PinRef.dOut "Z", false⟩ = 0
    ∧ wireWirePenalty allIntersectOracle emptyScene
      ⟨PinRef.dIn "P", PinRef.dOut "Q", false⟩ ⟨PinRef.dIn "R", PinRef.dOut "S", false⟩ = 1 :=
  ⟨(c5_wire_sharing_exemption allIntersectOracle emptyScene
      ⟨PinRef.dIn "X", PinRef.dOut "Y", false⟩ ⟨PinRef.dIn "X", PinRef.dOut "Z", false⟩).1
      (fun h => h.1 rfl),
   (c5_wire_sharing_exemption allIntersectOracle emptyScene
      ⟨PinRef.dIn "P", PinRef.dOut "Q", false⟩ ⟨PinRef.dIn "R", PinRef.dOut "S", false⟩).2
      (by decide) rfl⟩

/-- Witness for C7: two calls of the placement search on equal concrete
inputs return the same position. -/
theorem c7_placement_deterministic_witness :
    find_safe_placement emptyScene 20 20 none ⟨0, 0⟩ false
      = find_safe_placement emptyScene 20 20 none ⟨0, 0⟩ false :=
  c7_placement_deterministic emptyScene emptyScene 20 20 20 20 none none
    ⟨0, 0⟩ ⟨0, 0⟩ false false rfl rfl rfl rfl rfl rfl

end Diagrams
